/-
Verification of the news-bot publish pipeline.

Shallow embedding of the repository code:
  app/main.py                                  (publish state store, job orchestration)
  app/core/news_rewriter.py                    (bounded rewrite loop, formatting)
  app/core/sources/decrypt_co/parse_news_feed.py
  app/core/sources/beincrypto_com/parse_news_feed.py
  app/core/scheduler.py                        (job registration wrapper)

Python datetimes are modelled by calendar fields plus an optional UTC offset
in minutes (none = naive).  Comparing a naive and an aware datetime raises
TypeError, which the embedding models with Except.  External effects (the
OpenAI calls, the network, the wall clock) enter the model as explicit
parameters; everything computed by the repository itself is translated
directly from the source.
-/
import Mathlib

namespace NewsBot

/-- Python exceptions that the embedded code can raise. -/
inductive PyExc where
  | typeError
  | attributeError
  | valueError
  | other
deriving DecidableEq, Repr

/-- Model of datetime.datetime: calendar fields, microseconds, and an
optional fixed UTC offset in minutes (tzMin = none models a naive value). -/
structure PyDatetime where
  year : Nat
  month : Nat
  day : Nat
  hour : Nat
  minute : Nat
  second : Nat
  micro : Nat
  tzMin : Option Int
deriving DecidableEq, Repr

/-- Days from 0001-01-01 (proleptic Gregorian) to the given civil date,
relative to 1970-01-01; standard civil-from-days inverse companion. -/
def daysFromCivil (y m d : Nat) : Int :=
  let yA : Nat := if m ≤ 2 then y - 1 else y
  let era : Nat := yA / 400
  let yoe : Nat := yA - era * 400
  let mp : Nat := (m + 9) % 12
  let doy : Nat := (153 * mp + 2) / 5 + (d - 1)
  let doe : Nat := yoe * 365 + yoe / 4 - yoe / 100 + doy
  (era : Int) * 146097 + (doe : Int) - 719468

/-- Total order key for datetime comparison: microseconds since the epoch,
shifted by the UTC offset for aware values.  Python only ever compares
datetimes of the same kind (both naive or both aware), where this key
matches the comparison datetime.datetime implements. -/
def instUSec (t : PyDatetime) : Int :=
  (daysFromCivil t.year t.month t.day * 86400
      + ((t.hour * 3600 + t.minute * 60 + t.second : Nat) : Int)
      - (t.tzMin.getD 0) * 60) * 1000000 + (t.micro : Int)

/-- Both operands naive, or both aware (Python comparison is only defined
in that case). -/
def sameKind (a b : PyDatetime) : Bool := a.tzMin.isSome == b.tzMin.isSome

/-- Python `a < b` on datetimes: TypeError when one is naive and the other
aware. -/
def pyLt (a b : PyDatetime) : Except PyExc Bool :=
  if sameKind a b then .ok (decide (instUSec a < instUSec b))
  else .error .typeError

/-- Python `a <= b` on datetimes. -/
def pyLe (a b : PyDatetime) : Except PyExc Bool :=
  if sameKind a b then .ok (decide (instUSec a ≤ instUSec b))
  else .error .typeError

/-- Wall-clock reading used to model calls to datetime.datetime.now. -/
structure WallClock where
  year : Nat
  month : Nat
  day : Nat
  hour : Nat
  minute : Nat
  second : Nat
  micro : Nat
deriving DecidableEq, Repr

/-- dt.datetime.now(timezone.utc): aware, offset zero. -/
def datetime_now_utc (c : WallClock) : PyDatetime :=
  ⟨c.year, c.month, c.day, c.hour, c.minute, c.second, c.micro, some 0⟩

/-- dt.datetime.now() with no argument: a naive datetime. -/
def datetime_now_naive (c : WallClock) : PyDatetime :=
  ⟨c.year, c.month, c.day, c.hour, c.minute, c.second, c.micro, none⟩

/-- Zero-padded fixed-width decimal rendering (the %0Nd of isoformat). -/
def padChars : Nat → Nat → List Char
  | 0, _ => []
  | w + 1, n => padChars w (n / 10) ++ [Char.ofNat (48 + n % 10)]

/-- Zero-padded fixed-width decimal string. -/
def padNum (w n : Nat) : String := ⟨padChars w n⟩

/-- The UTC-offset suffix isoformat appends for aware datetimes: sign,
two-digit hours, colon, two-digit minutes of the absolute offset. -/
def offsetSuffixChars (off : Int) : List Char :=
  (if off < 0 then '-' else '+') ::
    (padChars 2 (off.natAbs / 60) ++ ':' :: padChars 2 (off.natAbs % 60))

/-- The characters of datetime.isoformat(): YYYY-MM-DDTHH:MM:SS, with
.ffffff only when the microsecond field is nonzero and the offset suffix
only when aware. -/
def isoformatChars (t : PyDatetime) : List Char :=
  padChars 4 t.year ++ '-' ::
    (padChars 2 t.month ++ '-' ::
      (padChars 2 t.day ++ 'T' ::
        (padChars 2 t.hour ++ ':' ::
          (padChars 2 t.minute ++ ':' ::
            (padChars 2 t.second ++
              ((if t.micro == 0 then [] else '.' :: padChars 6 t.micro) ++
                (match t.tzMin with
                 | none => []
                 | some off => offsetSuffixChars off)))))))

/-- datetime.isoformat() as a string. -/
def pyIsoformat (t : PyDatetime) : String := ⟨isoformatChars t⟩

/-- Python str.lower, per code point (the repository only lowercases ASCII
category and source names). -/
def pyLower (s : String) : String := ⟨s.data.map Char.toLower⟩

/-- Python str.upper, per code point. -/
def pyUpper (s : String) : String := ⟨s.data.map Char.toUpper⟩

/-- Python s[:n], slicing by code points. -/
def pySlice (s : String) (n : Nat) : String := ⟨s.data.take n⟩

/-! ## Publish state store (app/main.py) -/

/-- Insertion-ordered string dictionary, as Python dicts: setting an
existing key replaces its value in place, a new key is appended. -/
def assocSet {α : Type} : List (String × α) → String → α → List (String × α)
  | [], k, v => [(k, v)]
  | (k₀, v₀) :: rest, k, v =>
      if k₀ = k then (k₀, v) :: rest else (k₀, v₀) :: assocSet rest k v

/-- Dictionary lookup (first matching key). -/
def assocGet {α : Type} : List (String × α) → String → Option α
  | [], _ => none
  | (k₀, v₀) :: rest, k => if k₀ = k then some v₀ else assocGet rest k

/-- The persisted last_published.json structure:
source -> category -> ISO timestamp string. -/
abbrev PubState := List (String × List (String × String))

/-- state.get(source, default).get(category): the read path of the store. -/
def stateLookup (st : PubState) (s c : String) : Option String :=
  (assocGet st s).bind fun inner => assocGet inner c

/-- The last_published.json file: none models a missing or unreadable file
(json.loads raising), some models a well-formed persisted state. -/
abbrev StateFile := Option PubState

/-- update_published_dates from app/main.py: lowercases source and
category, creates the source bucket if absent, stores pub_date.isoformat()
and rewrites the whole file.  Returns the mutated in-memory state and the
new file contents. -/
def update_published_dates (prev : PubState) (source category : String)
    (pub : PyDatetime) : PubState × StateFile :=
  let source := pyLower source
  let category := pyLower category
  let inner := (assocGet prev source).getD []
  let newPrev := assocSet prev source (assocSet inner category (pyIsoformat pub))
  (newPrev, some newPrev)

/-- load_last_published from app/main.py: parse the file, and on any read
or parse failure log and return the empty dict. -/
def load_last_published (file : StateFile) : PubState :=
  file.getD []

/-! ## Rewrite engine (app/core/news_rewriter.py)

The OpenAI chat completions are external calls; the model output of each
attempt enters the embedding as explicit string parameters.  Everything
the repository computes from those outputs (quote stripping, markdown link
conversion, assembly of the final post, the bounded retry loop) is
translated from the source. -/

/-- Match the non-greedy url part of the markdown-link pattern: the
shortest newline-free run of characters followed by a closing paren.
Returns the url characters and the rest of the input after the paren. -/
def mdMatchUrl : List Char → Option (List Char × List Char)
  | [] => none
  | c :: r =>
    if c = ')' then some ([], r)
    else if c = '\n' then none
    else
      match mdMatchUrl r with
      | some (u, rest) => some (c :: u, rest)
      | none => none

/-- Scan for the link-text boundary after an opening bracket, emulating the
backtracking of the non-greedy pattern: at each "](" boundary try to
complete the url part; on failure the bracket is absorbed into the text
and the scan continues.  The fuel argument always equals the length of the
character list, so the zero-fuel case coincides with the empty-list case. -/
def mdMatchAfterOpen : Nat → List Char → List Char → Option (List Char × List Char × List Char)
  | 0, _, _ => none
  | fuel + 1, acc, l =>
    match l with
    | ']' :: '(' :: r =>
      match mdMatchUrl r with
      | some (u, rest) => some (acc.reverse, u, rest)
      | none => mdMatchAfterOpen fuel (']' :: acc) ('(' :: r)
    | c :: r =>
      if c = '\n' then none else mdMatchAfterOpen fuel (c :: acc) r
    | [] => none

/-- The replacement text of convert_md_links_to_html. -/
def htmlLink (text url : List Char) : List Char :=
  ("<a href=\"" ++ url.asString ++ "\">" ++ text.asString ++ "</a>").data

/-- Left-to-right scan of re.sub: at each position try to match a markdown
link, replace it and continue after the match, otherwise emit the
character.  Fuel starts at the input length and never runs out because
every step consumes at least one character. -/
def convertGo : Nat → List Char → List Char
  | 0, l => l
  | fuel + 1, l =>
    match l with
    | [] => []
    | c :: rest =>
      if c = '[' then
        match mdMatchAfterOpen rest.length [] rest with
        | some (text, url, after) => htmlLink text url ++ convertGo fuel after
        | none => c :: convertGo fuel rest
      else c :: convertGo fuel rest

/-- convert_md_links_to_html: rewrite every occurrence of a markdown link
into its html anchor form. -/
def convert_md_links_to_html (s : String) : String :=
  ⟨convertGo s.data.length s.data⟩

/-- format_news: html bold title in upper case, blank line, the body with
links converted, a newline and the fixed footer. -/
def format_news (news_text news_title : String) : String :=
  let bottom_text := "\n#quests_news"
  let converted := convert_md_links_to_html news_text
  "<b>" ++ pyUpper news_title ++ "</b>\n\n" ++ converted ++ "\n" ++ bottom_text

/-- The quote-stripping step of create_title applied to the model output:
when the text both starts and ends with a double quote, drop the first and
last character. -/
def create_title_from_model (modelTitle : String) : String :=
  match modelTitle.data with
  | [] => modelTitle
  | c :: _ =>
    if c = '"' ∧ modelTitle.data.getLast? = some '"' then
      ⟨(modelTitle.data.drop 1).dropLast⟩
    else modelTitle

/-- rewrite_news_from_url for one attempt: the model body text and the
model title text are the external inputs; the function formats them into
the final post. -/
def rewrite_news_from_url (modelText modelTitle : String) : String :=
  format_news modelText (create_title_from_model modelTitle)

/-- The typed failure of the rewrite loop (app/core/exceptions.py). -/
structure RewritedNewsIsTooLongError where
  original_news : String
  rewrited_news : String
  rewrited_news_length : Nat
deriving DecidableEq, Repr

/-- Result of rewrite_news: a post within the limit together with the
number of attempts consumed, the typed too-long failure, or the NameError
hit when the loop body never ran (max_rewriting_tries = 0 leaves the news
variable unbound at the raise site). -/
inductive RewriteOutcome where
  | ok (news : String) (attemptsUsed : Nat)
  | tooLong (e : RewritedNewsIsTooLongError) (attemptsUsed : Nat)
  | nameErr
deriving DecidableEq, Repr

/-- The retry loop of rewrite_news: index i is the number of attempts
already made, remaining counts loop iterations left, lastNews holds the
text of the last attempt (absent before the first iteration). -/
def rewrite_news_go (attempt : Nat → String) (url : String) (maxLen : Nat) :
    Nat → Nat → Option String → RewriteOutcome
  | i, 0, lastNews =>
    match lastNews with
    | none => .nameErr
    | some news => .tooLong ⟨"from " ++ url, news, news.length⟩ i
  | i, r + 1, _ =>
    let news := attempt (i)
    if news.length ≤ maxLen then .ok news (i + 1)
    else rewrite_news_go attempt url maxLen (i + 1) r (some news)

/-- rewrite_news: up to max_rewriting_tries attempts, each producing a
formatted post from fresh model outputs; return the first one whose length
fits max_news_text_len, otherwise raise the typed error carrying the last
attempt and its measured length. -/
def rewrite_news (modelText modelTitle : Nat → String) (url : String)
    (maxLen tries : Nat) : RewriteOutcome :=
  rewrite_news_go (fun i => rewrite_news_from_url (modelText i) (modelTitle i))
    url maxLen 0 tries none

/-! ## Feed readers

app/core/sources/decrypt_co/parse_news_feed.py and
app/core/sources/beincrypto_com/parse_news_feed.py.  The network fetch and
the third-party parsers (feedparser, dateutil, the stdlib XML parser) are
external; their per-entry outcomes enter the model as data.  The filtering,
date fallback, category handling, exception flow, sorting and truncation
are translated from the source. -/

/-- Outcome of dateutil parser.parse on one date field of a feedparser
entry: the field can be absent (hasattr false), parse to a datetime, raise
one of the caught exception types (AttributeError, ValueError), or raise
an uncaught exception type that propagates out of the helper. -/
inductive FieldParse where
  | absent
  | parsed (d : PyDatetime)
  | caughtErr
  | fatalErr
deriving DecidableEq, Repr

/-- One feedparser entry of the decrypt feed. -/
structure DecryptEntry where
  published : FieldParse
  updated : FieldParse
  created : FieldParse
  tags : Option (List String)
  title : String
  link : String
  summary : String
  media_thumbnail : Option String
deriving DecidableEq, Repr

/-- The parsed decrypt feed: the bozo flag of feedparser, the feed title
and the entry list. -/
structure DecryptFeed where
  bozo : Bool
  feedTitle : String
  entries : List DecryptEntry
deriving DecidableEq, Repr

/-- date.replace(tzinfo=timezone.utc) applied when the parsed date is
naive: keep the wall-clock fields, set offset zero. -/
def coerceUtc (d : PyDatetime) : PyDatetime :=
  if d.tzMin = none then { d with tzMin := some 0 } else d

/-- One step of the field fallback: none means move on to the next field,
some is the final outcome of the helper. -/
def parseDateField : FieldParse → Option (Except PyExc PyDatetime)
  | .absent => none
  | .caughtErr => none
  | .parsed d => some (.ok (coerceUtc d))
  | .fatalErr => some (.error .typeError)

/-- decrypt _parse_publication_date: try published, updated, created in
that order; when every field is absent or raises a caught exception, the
fallback line reads dt.now with dt bound to the datetime module, which
raises AttributeError (the module has no now attribute). -/
def decrypt_parse_publication_date (e : DecryptEntry) : Except PyExc PyDatetime :=
  match parseDateField e.published with
  | some r => r
  | none =>
    match parseDateField e.updated with
    | some r => r
    | none =>
      match parseDateField e.created with
      | some r => r
      | none => .error .attributeError

/-- decrypt _extract_categories: the lowercased tag terms, empty when the
entry has no tags attribute. -/
def decrypt_extract_categories (e : DecryptEntry) : List String :=
  match e.tags with
  | some ts => ts.map pyLower
  | none => []

/-- The comparison key of now - timedelta(days=1): subtracting a timedelta
shifts the instant by exactly that many seconds. -/
def pubThresholdKey (c : WallClock) : Int :=
  instUSec (datetime_now_utc c) - 86400 * 1000000

/-- decrypt _is_too_old: stale when older than one day before now, else
already published when pub_date <= prev_published (datetime objects are
always truthy, so the check runs whenever a watermark was passed); both
comparisons raise TypeError on a naive/aware mix. -/
def decrypt_is_too_old (pub : PyDatetime) (prev : Option PyDatetime)
    (c : WallClock) : Except PyExc Bool :=
  let now := datetime_now_utc c
  if pub.tzMin.isSome != now.tzMin.isSome then .error .typeError
  else if instUSec pub < pubThresholdKey c then .ok true
  else
    match prev with
    | none => .ok false
    | some p =>
      if pub.tzMin.isSome != p.tzMin.isSome then .error .typeError
      else .ok (decide (instUSec pub ≤ instUSec p))

/-- The NewsItem pydantic model (app/core/models.py). -/
structure NewsItem where
  title : String
  link : String
  published_at : PyDatetime
  source : String
  category : Option String
  summary : String
  img_link : Option String
deriving DecidableEq, Repr

/-- decrypt create_news_item: summary truncated to 200 characters with an
ellipsis, the category stored exactly as passed in. -/
def create_news_item (e : DecryptEntry) (feedTitle : String) (pub : PyDatetime)
    (category : Option String) : NewsItem :=
  { title := e.title, link := e.link, published_at := pub, source := feedTitle,
    category := category, summary := pySlice e.summary 200 ++ "...",
    img_link := e.media_thumbnail }

/-- Stable insertion for the descending sort: a new element goes before
every element with a key not above its own.  Folding from the right makes
earlier input elements land before equal-key later ones, matching the
stable sorted(..., reverse=True). -/
def insertDesc (x : NewsItem) : List NewsItem → List NewsItem
  | [] => [x]
  | y :: ys =>
    if instUSec y.published_at ≤ instUSec x.published_at then x :: y :: ys
    else y :: insertDesc x ys

/-- sorted(category_news, key=published_at, reverse=True). -/
def sortByPublishedDesc (l : List NewsItem) : List NewsItem :=
  l.foldr insertDesc []

/-- Python truthiness of the target_category argument: None and the empty
string are falsy. -/
def targetTruthy : Option String → Bool
  | none => false
  | some t => t ≠ ""

/-- The entry loop of decrypt get_latest_news_by_category.  An exception
from date parsing or the age check aborts the loop; the surrounding
except block logs it and the function falls through to the sort with the
items collected so far. -/
def decrypt_collect (feedTitle : String) (target : Option String)
    (prev : Option PyDatetime) (c : WallClock) :
    List DecryptEntry → List NewsItem → List NewsItem
  | [], acc => acc
  | e :: es, acc =>
    match decrypt_parse_publication_date e with
    | .error _ => acc
    | .ok pub =>
      match decrypt_is_too_old pub prev c with
      | .error _ => acc
      | .ok true => decrypt_collect feedTitle target prev c es acc
      | .ok false =>
        if targetTruthy target then
          if pyLower (target.getD "") ∈ decrypt_extract_categories e then
            decrypt_collect feedTitle target prev c es
              (acc ++ [create_news_item e feedTitle pub target])
          else decrypt_collect feedTitle target prev c es acc
        else decrypt_collect feedTitle target prev c es
          (acc ++ [create_news_item e feedTitle pub target])

/-- decrypt FeedReader.get_latest_news_by_category: bozo feeds return the
empty list immediately; otherwise the collected items are sorted newest
first and truncated to max_news_count. -/
def decrypt_get_latest (feed : DecryptFeed) (target : Option String)
    (maxCount : Nat) (prev : Option PyDatetime) (c : WallClock) : List NewsItem :=
  if feed.bozo then []
  else (sortByPublishedDesc
          (decrypt_collect feed.feedTitle target prev c feed.entries [])).take maxCount

/-- One item of the beincrypto feed dataclass; pub_date is whatever
parse_date produced while the XML was parsed. -/
structure BeFeedItem where
  title : String
  link : String
  creator : String
  pub_date : PyDatetime
  categories : List String
  description : String
  content : String
  media_url : Option String
  guid : String
deriving DecidableEq, Repr

/-- The beincrypto Feed dataclass restricted to what get_latest reads
(the metadata fields are never consulted by the pipeline). -/
structure BeFeed where
  items : List BeFeedItem
deriving DecidableEq, Repr

/-- beincrypto parse_date: strptime with the RFC-822 format (an aware
result when it succeeds, which the first parameter models), falling back
to naive datetime.now() on ValueError. -/
def beincrypto_parse_date (parsedOk : Option PyDatetime) (c : WallClock) : PyDatetime :=
  match parsedOk with
  | some d => d
  | none => datetime_now_naive c

/-- beincrypto _is_too_old: same body as the decrypt one. -/
def beincrypto_is_too_old (pub : PyDatetime) (prev : Option PyDatetime)
    (c : WallClock) : Except PyExc Bool :=
  let now := datetime_now_utc c
  if pub.tzMin.isSome != now.tzMin.isSome then .error .typeError
  else if instUSec pub < pubThresholdKey c then .ok true
  else
    match prev with
    | none => .ok false
    | some p =>
      if pub.tzMin.isSome != p.tzMin.isSome then .error .typeError
      else .ok (decide (instUSec pub ≤ instUSec p))

/-- beincrypto _create_news_item: stores the (already lowercased) target
category. -/
def beincrypto_create_news_item (it : BeFeedItem) (category : String) : NewsItem :=
  { title := it.title, link := it.link, published_at := it.pub_date,
    source := it.creator, category := some category, summary := it.description,
    img_link := it.media_url }

/-- The entry loop of beincrypto get_latest_news_by_category with the same
abort-on-exception flow as the decrypt one; target arrives already
lowercased. -/
def beincrypto_collect (target : String) (prev : Option PyDatetime) (c : WallClock) :
    List BeFeedItem → List NewsItem → List NewsItem
  | [], acc => acc
  | e :: es, acc =>
    match beincrypto_is_too_old e.pub_date prev c with
    | .error _ => acc
    | .ok true => beincrypto_collect target prev c es acc
    | .ok false =>
      if target ≠ "" ∧ target ∉ e.categories then
        beincrypto_collect target prev c es acc
      else beincrypto_collect target prev c es
        (acc ++ [beincrypto_create_news_item e target])

/-- beincrypto FeedReader.get_latest_news_by_category.  The call lowercases
target_category before entering the try block, so a None target raises
AttributeError to the caller; a failed fetch (fetch_rss_feed returned
None) raises inside the try when the loop touches feed.items, the handler
logs it and the empty collection is sorted and returned. -/
def beincrypto_get_latest (fetched : Option BeFeed) (target : Option String)
    (maxCount : Nat) (prev : Option PyDatetime) (c : WallClock) :
    Except PyExc (List NewsItem) :=
  match target with
  | none => .error .attributeError
  | some t =>
    let tl := pyLower t
    let acc :=
      match fetched with
      | none => []
      | some feed => beincrypto_collect tl prev c feed.items []
    .ok ((sortByPublishedDesc acc).take maxCount)

/-- The decrypt feed used to exhibit the mixed-case category leak. -/
def c9Feed : DecryptFeed :=
  { bozo := false, feedTitle := "Decrypt",
    entries := [{ published := .parsed ⟨2024, 6, 1, 12, 0, 0, 0, some 0⟩,
                  updated := .absent, created := .absent, tags := some ["Gaming"],
                  title := "T", link := "L", summary := "S",
                  media_thumbnail := none }] }

/-- Feed with one processable fresh entry followed by an entry whose date
parsing raises an uncaught exception type. -/
def c7Feed : DecryptFeed :=
  { bozo := false, feedTitle := "Decrypt",
    entries := [{ published := .parsed ⟨2024, 6, 1, 12, 0, 0, 0, some 0⟩,
                  updated := .absent, created := .absent, tags := some ["gaming"],
                  title := "Good", link := "L1", summary := "S1",
                  media_thumbnail := none },
                { published := .fatalErr, updated := .absent, created := .absent,
                  tags := some ["gaming"], title := "Bad", link := "L2",
                  summary := "S2", media_thumbnail := none }] }

/-! ## Scheduler (app/core/scheduler.py) -/

/-- A job entry in the scheduler job table. -/
structure ApJob where
  jid : String
  hour : Nat
  minute : Nat
deriving DecidableEq, Repr

/-- Modelled from the spec: the APScheduler job store behind
SchedulerManager is an external library, out of scope of the repository;
the spec treats the scheduler as holding a job table keyed by job id.
The job table as a list of jobs. -/
abbrev JobTable := List ApJob

/-- Modelled from the spec: scheduler.get_job returns the job with the
given id when present. -/
def ap_get_job (tbl : JobTable) (jid : String) : Option ApJob :=
  tbl.find? (fun j => j.jid == jid)

/-- Modelled from the spec: scheduler.remove_job deletes the job with the
given id. -/
def ap_remove_job (tbl : JobTable) (jid : String) : JobTable :=
  tbl.filter (fun j => j.jid != jid)

/-- Modelled from the spec: scheduler.add_job appends a new job, and with
replace_existing set it replaces a job that already carries the same id
instead of failing with a conflicting-id error. -/
def ap_add_job (tbl : JobTable) (job : ApJob) (replaceExisting : Bool) :
    Except PyExc JobTable :=
  if (ap_get_job tbl job.jid).isSome then
    if replaceExisting then
      .ok (tbl.map (fun j => if j.jid == job.jid then job else j))
    else .error .other
  else .ok (tbl ++ [job])

/-- SchedulerManager._remove_job_if_exists: remove the job when get_job
finds it, swallowing any error. -/
def remove_job_if_exists (tbl : JobTable) (jid : String) : JobTable :=
  match ap_get_job tbl jid with
  | some _ => ap_remove_job tbl jid
  | none => tbl

/-- SchedulerManager.schedule_job: validate the time (raising ValueError
outside the try block when out of range), remove any existing job with the
id, then add the new cron job with replace_existing; errors inside the try
are caught and reported by returning False. -/
def schedule_job (tbl : JobTable) (jid : String) (hours minutes : Nat) :
    Except PyExc (JobTable × Bool) :=
  if ¬ (hours ≤ 23 ∧ minutes ≤ 59) then .error .valueError
  else
    let tbl2 := remove_job_if_exists tbl jid
    match ap_add_job tbl2 ⟨jid, hours, minutes⟩ true with
    | .ok tbl3 => .ok (tbl3, true)
    | .error _ => .ok (tbl2, false)

/-- N successive calls of schedule_job with the same id and time; a raised
ValueError leaves the table unchanged. -/
def schedule_job_iter (jid : String) (hours minutes : Nat) :
    Nat → JobTable → JobTable
  | 0, tbl => tbl
  | n + 1, tbl =>
    let tbl' := schedule_job_iter jid hours minutes n tbl
    match schedule_job tbl' jid hours minutes with
    | .ok (tbl2, _) => tbl2
    | .error _ => tbl'

/-! ## strptime with format "%Y-%m-%dT%H:%M:%S%z" (read path of the store)

publish_news_job parses the stored watermark with
dt.datetime.strptime(s, "%Y-%m-%dT%H:%M:%S%z").  The parser below follows
the regular expressions CPython compiles for each directive, with ordered
alternatives and no backtracking across directives (the zero-padded inputs
relevant here never need it), and the calendar and offset range checks the
datetime constructor performs afterwards.  Offsets are modelled at minute
resolution, so an explicit nonzero seconds-or-fraction part in the offset
(which no isoformat output of this store ever contains) is rejected. -/

/-- Numeric value of a digit character. -/
def dval (c : Char) : Nat := c.toNat - 48

/-- The %Y directive: exactly four digits. -/
def reYear : List Char → Option (Nat × List Char)
  | c1 :: c2 :: c3 :: c4 :: r =>
    if c1.isDigit ∧ c2.isDigit ∧ c3.isDigit ∧ c4.isDigit then
      some (((dval c1 * 10 + dval c2) * 10 + dval c3) * 10 + dval c4, r)
    else none
  | _ => none

/-- The %m directive, alternatives in order: 1[0-2], 0[1-9], [1-9]. -/
def reMonth : List Char → Option (Nat × List Char)
  | c1 :: c2 :: r =>
    if c1.isDigit ∧ c2.isDigit then
      if dval c1 = 1 ∧ dval c2 ≤ 2 then some (10 + dval c2, r)
      else if dval c1 = 0 ∧ 1 ≤ dval c2 then some (dval c2, r)
      else if 1 ≤ dval c1 then some (dval c1, c2 :: r)
      else none
    else if c1.isDigit ∧ 1 ≤ dval c1 then some (dval c1, c2 :: r)
    else none
  | [c1] => if c1.isDigit ∧ 1 ≤ dval c1 then some (dval c1, []) else none
  | [] => none

/-- The %d directive, alternatives in order: 3[01], [12]\d, 0[1-9], [1-9]. -/
def reDay : List Char → Option (Nat × List Char)
  | c1 :: c2 :: r =>
    if c1.isDigit ∧ c2.isDigit then
      if dval c1 = 3 ∧ dval c2 ≤ 1 then some (30 + dval c2, r)
      else if dval c1 = 1 ∨ dval c1 = 2 then some (dval c1 * 10 + dval c2, r)
      else if dval c1 = 0 ∧ 1 ≤ dval c2 then some (dval c2, r)
      else if 1 ≤ dval c1 then some (dval c1, c2 :: r)
      else none
    else if c1.isDigit ∧ 1 ≤ dval c1 then some (dval c1, c2 :: r)
    else none
  | [c1] => if c1.isDigit ∧ 1 ≤ dval c1 then some (dval c1, []) else none
  | [] => none

/-- The %H directive, alternatives in order: 2[0-3], [0-1]\d, \d. -/
def reHour : List Char → Option (Nat × List Char)
  | c1 :: c2 :: r =>
    if c1.isDigit ∧ c2.isDigit then
      if dval c1 = 2 ∧ dval c2 ≤ 3 then some (20 + dval c2, r)
      else if dval c1 ≤ 1 then some (dval c1 * 10 + dval c2, r)
      else some (dval c1, c2 :: r)
    else if c1.isDigit then some (dval c1, c2 :: r)
    else none
  | [c1] => if c1.isDigit then some (dval c1, []) else none
  | [] => none

/-- The %M directive, alternatives in order: [0-5]\d, \d. -/
def reMinute : List Char → Option (Nat × List Char)
  | c1 :: c2 :: r =>
    if c1.isDigit ∧ c2.isDigit ∧ dval c1 ≤ 5 then
      some (dval c1 * 10 + dval c2, r)
    else if c1.isDigit then some (dval c1, c2 :: r)
    else none
  | [c1] => if c1.isDigit then some (dval c1, []) else none
  | [] => none

/-- The %S directive, alternatives in order: 6[0-1], [0-5]\d, \d (the
leap-second values pass the regex and fail in the datetime constructor). -/
def reSecond : List Char → Option (Nat × List Char)
  | c1 :: c2 :: r =>
    if c1.isDigit ∧ c2.isDigit then
      if dval c1 = 6 ∧ dval c2 ≤ 1 then some (60 + dval c2, r)
      else if dval c1 ≤ 5 then some (dval c1 * 10 + dval c2, r)
      else some (dval c1, c2 :: r)
    else if c1.isDigit then some (dval c1, c2 :: r)
    else none
  | [c1] => if c1.isDigit then some (dval c1, []) else none
  | [] => none

/-- A literal character of the format string. -/
def expectChar (c : Char) : List Char → Option (List Char)
  | c₀ :: r => if c₀ = c then some r else none
  | [] => none

/-- Two mandatory digits inside the %z offset. -/
def twoDigits : List Char → Option (Nat × List Char)
  | c1 :: c2 :: r =>
    if c1.isDigit ∧ c2.isDigit then some (dval c1 * 10 + dval c2, r) else none
  | _ => none

/-- The :?\d\d piece of the %z offset: an optional colon followed by two
digits; a colon not followed by two digits fails the whole piece. -/
def colonTwoDigits : List Char → Option (Nat × List Char)
  | ':' :: r => twoDigits r
  | r => twoDigits r

/-- Up to six fraction digits after the dot in the %z offset, greedy;
returns their combined value and how many there were. -/
def fracDigits : Nat → List Char → Nat × Nat × List Char
  | 0, r => (0, 0, r)
  | budget + 1, c :: r =>
    if c.isDigit then
      let (v, n, rest) := fracDigits budget r
      (dval c * 10 ^ n + v, n + 1, rest)
    else (0, 0, c :: r)
  | _ + 1, [] => (0, 0, [])

/-- The optional (:?\d\d(\.\d{1,6})?)? seconds group of %z: greedy, and a
dot not followed by a digit leaves the dot unconsumed. -/
def optOffSeconds (r : List Char) : Nat × Nat × List Char :=
  match colonTwoDigits r with
  | none => (0, 0, r)
  | some (ss, r1) =>
    match r1 with
    | '.' :: r2 =>
      let (fv, n, r3) := fracDigits 6 r2
      if n = 0 then (ss, 0, '.' :: r2) else (ss, fv, r3)
    | _ => (ss, 0, r1)

/-- The %z directive: Z, or a sign, two hour digits, an optional colon,
two minute digits and the optional seconds group; followed by the range
check of the timezone constructor.  Returns the offset in minutes. -/
def reZ : List Char → Option (Int × List Char)
  | [] => none
  | c :: rest =>
    if c = 'Z' then some (0, rest)
    else if c = '+' ∨ c = '-' then
      match twoDigits rest with
      | none => none
      | some (hh, r1) =>
        match colonTwoDigits r1 with
        | none => none
        | some (mm, r2) =>
          let (ss, fv, r3) := optOffSeconds r2
          if ss = 0 ∧ fv = 0 ∧ hh * 60 + mm ≤ 1439 then
            let mins : Int := (hh * 60 + mm : Nat)
            some (if c = '-' then -mins else mins, r3)
          else none
    else none

/-- Leap years of the proleptic Gregorian calendar. -/
def isLeapYear (y : Nat) : Bool :=
  y % 4 == 0 && (y % 100 != 0 || y % 400 == 0)

/-- Length of a month, used by the datetime constructor validity check. -/
def daysInMonth (y m : Nat) : Nat :=
  if m = 2 then (if isLeapYear y then 29 else 28)
  else if m = 4 ∨ m = 6 ∨ m = 9 ∨ m = 11 then 30
  else 31

/-- datetime.strptime(s, "%Y-%m-%dT%H:%M:%S%z"): directive by directive,
requiring the whole string consumed, then the constructor checks (year at
least 1, day within the month, second at most 59).  The microsecond field
of the result is zero because the format has no %f. -/
def strptimeIsoZ (s : String) : Option PyDatetime := do
  let (y, r1) ← reYear s.data
  let r2 ← expectChar '-' r1
  let (mo, r3) ← reMonth r2
  let r4 ← expectChar '-' r3
  let (d, r5) ← reDay r4
  let r6 ← expectChar 'T' r5
  let (h, r7) ← reHour r6
  let r8 ← expectChar ':' r7
  let (mi, r9) ← reMinute r8
  let r10 ← expectChar ':' r9
  let (sec, r11) ← reSecond r10
  let (off, r12) ← reZ r11
  if r12 = [] ∧ 1 ≤ y ∧ 1 ≤ mo ∧ mo ≤ 12 ∧ 1 ≤ d ∧ d ≤ daysInMonth y mo ∧
      sec ≤ 59 then
    some ⟨y, mo, d, h, mi, sec, 0, some off⟩
  else none

/-! ## Publish pipeline orchestration (app/main.py)

The rewrite call and the channel delivery are external effects; their
outcome for each item enters the model as data.  The control flow of
process_and_publish_item and publish_news_job (which handler catches what,
when the watermark is written, what escapes the job) is translated from
the source. -/

/-- Outcome of the NewsRewriter.rewrite_news call made for one item: a
post within the limit, the typed too-long error, or any other exception
(network failure, NameError from a zero tries setting, and so on). -/
inductive RwCall where
  | ok (news : String)
  | tooLong (e : RewritedNewsIsTooLongError)
  | exc (e : PyExc)
deriving DecidableEq, Repr

/-- The operator-facing effects a job run emits, abstracted from their
message text. -/
inductive Report where
  | noFreshNews
  | published
  | rewriteTooLong
  | jobError
deriving DecidableEq, Repr

/-- process_and_publish_item: rewrite, deliver, and only then update the
persisted watermark.  RewritedNewsIsTooLongError is reported and
swallowed; every other exception of the rewrite or the delivery is logged
and re-raised, leaving the state file untouched.  Returns the in-memory
state, the file, the reports, and whether an exception escapes. -/
def process_and_publish_item (item : NewsItem) (source category : String)
    (prev : PubState) (file : StateFile) (rw : RwCall)
    (deliver : Except PyExc Unit) :
    PubState × StateFile × List Report × Except PyExc Unit :=
  match rw with
  | .exc e => (prev, file, [], .error e)
  | .tooLong _ => (prev, file, [.rewriteTooLong], .ok ())
  | .ok _ =>
    match deliver with
    | .error e => (prev, file, [], .error e)
    | .ok () =>
      let (prev2, file2) :=
        update_published_dates prev source category item.published_at
      (prev2, file2, [.published], .ok ())

/-- The per-item loop of publish_news_job: items processed in order, an
escaped exception stops the loop and is caught at the job boundary, which
reports it. -/
def job_items_loop (source category : String)
    (outcomes : NewsItem → RwCall × Except PyExc Unit) :
    List NewsItem → PubState → StateFile → List Report → StateFile × List Report
  | [], _, file, reps => (file, reps)
  | item :: rest, prev, file, reps =>
    let (rw, del) := outcomes item
    match process_and_publish_item item source category prev file rw del with
    | (prev2, file2, reps2, .ok ()) =>
      job_items_loop source category outcomes rest prev2 file2 (reps ++ reps2)
    | (_, file2, reps2, .error _) => (file2, reps ++ reps2 ++ [.jobError])

/-- The part of publish_news_job after the watermark was read: ask the
reader, report when there is no fresh news, else run the item loop; a
reader exception is caught at the job boundary. -/
def publish_news_job_after (source category : String) (prev : PubState)
    (file : StateFile)
    (reader : Option PyDatetime → Except PyExc (List NewsItem))
    (outcomes : NewsItem → RwCall × Except PyExc Unit)
    (last : Option PyDatetime) : StateFile × List Report :=
  match reader last with
  | .error _ => (file, [.jobError])
  | .ok [] => (file, [.noFreshNews])
  | .ok items => job_items_loop source category outcomes items prev file []

/-- publish_news_job: load the state, read the watermark for (source,
category) as stored, parse it with strptime (a parse failure is an
exception caught at the job boundary), fetch, process; the job itself
never lets an exception escape to the scheduler, it reports instead. -/
def publish_news_job (source category : String) (file : StateFile)
    (reader : Option PyDatetime → Except PyExc (List NewsItem))
    (outcomes : NewsItem → RwCall × Except PyExc Unit) : StateFile × List Report :=
  let prev := load_last_published file
  match assocGet ((assocGet prev source).getD []) category with
  | some s =>
    match strptimeIsoZ s with
    | none => (file, [.jobError])
    | some d => publish_news_job_after source category prev file reader outcomes (some d)
  | none => publish_news_job_after source category prev file reader outcomes none

/-- An item outcome that does not complete delivery: the rewrite raised
(typed or not), or the delivery raised. -/
def itemFails (o : RwCall × Except PyExc Unit) : Prop :=
  (∃ e, o.1 = .tooLong e) ∨ (∃ e, o.1 = .exc e) ∨ (∃ e, o.2 = .error e)

/-- The field ranges every constructible datetime.datetime satisfies. -/
def validDT (t : PyDatetime) : Prop :=
  1 ≤ t.year ∧ t.year ≤ 9999 ∧ 1 ≤ t.month ∧ t.month ≤ 12 ∧ 1 ≤ t.day ∧
    t.day ≤ daysInMonth t.year t.month ∧ t.hour ≤ 23 ∧ t.minute ≤ 59 ∧
    t.second ≤ 59 ∧ t.micro ≤ 999999

/-! ## Theorems -/

theorem assocGet_assocSet_same {α : Type} (l : List (String × α)) (k : String)
    (v : α) : assocGet (assocSet l k v) k = some v := by
  induction l with
  | nil => simp [assocSet, assocGet]
  | cons hd tl ih =>
    by_cases h : hd.1 = k
    · simp [assocSet, assocGet, h]
    · simp [assocSet, assocGet, h, ih]

theorem rewrite_news_go_ok_le (attempt : Nat → String) (url : String) (maxLen : Nat) :
    ∀ rem i last news used,
      rewrite_news_go attempt url maxLen i rem last = .ok news used →
      news.length ≤ maxLen := by
  intro rem
  induction rem with
  | zero =>
    intro i last news used h
    cases last <;> simp [rewrite_news_go] at h
  | succ r ih =>
    intro i last news used h
    by_cases hl : (attempt i).length ≤ maxLen
    · simp [rewrite_news_go, hl] at h
      exact h.1 ▸ hl
    · simp [rewrite_news_go, hl] at h
      exact ih (i + 1) (some (attempt i)) news used h

theorem rewrite_news_go_succ (attempt : Nat → String) (url : String)
    (maxLen i r : Nat) (last : Option String) :
    rewrite_news_go attempt url maxLen i (r + 1) last =
      (if (attempt i).length ≤ maxLen then .ok (attempt i) (i + 1)
       else rewrite_news_go attempt url maxLen (i + 1) r (some (attempt i))) := rfl

theorem rewrite_news_go_exhaust (attempt : Nat → String) (url : String) (maxLen : Nat) :
    ∀ rem i last, 1 ≤ rem →
      (∀ j, i ≤ j → j < i + rem → maxLen < (attempt j).length) →
      rewrite_news_go attempt url maxLen i rem last =
        .tooLong ⟨"from " ++ url, attempt (i + rem - 1),
                  (attempt (i + rem - 1)).length⟩ (i + rem) := by
  intro rem
  induction rem with
  | zero => intro i last h; omega
  | succ r ih =>
    intro i last _ hlong
    have hi : maxLen < (attempt i).length := hlong i (Nat.le_refl i) (by omega)
    have hnle : ¬ (attempt i).length ≤ maxLen := by omega
    rw [rewrite_news_go_succ, if_neg hnle]
    cases r with
    | zero =>
      simp [rewrite_news_go]
    | succ r' =>
      have hrec := ih (i + 1) (some (attempt i)) (by omega)
        (fun j h1 h2 => hlong j (by omega) (by omega))
      rw [hrec]
      have h1 : i + 1 + (r' + 1) - 1 = i + (r' + 1 + 1) - 1 := by omega
      have h2 : i + 1 + (r' + 1) = i + (r' + 1 + 1) := by omega
      rw [h1, h2]

theorem mem_insertDesc (x y : NewsItem) (l : List NewsItem) :
    y ∈ insertDesc x l → y = x ∨ y ∈ l := by
  induction l with
  | nil => intro h; simp [insertDesc] at h; exact Or.inl h
  | cons hd tl ih =>
    intro h
    by_cases hc : instUSec hd.published_at ≤ instUSec x.published_at
    · simp [insertDesc, hc] at h
      rcases h with h | h | h
      · exact Or.inl h
      · exact Or.inr (by simp [h])
      · exact Or.inr (by simp [h])
    · simp [insertDesc, hc] at h
      rcases h with h | h
      · exact Or.inr (by simp [h])
      · rcases ih h with h' | h'
        · exact Or.inl h'
        · exact Or.inr (by simp [h'])

theorem mem_sortByPublishedDesc (y : NewsItem) (l : List NewsItem) :
    y ∈ sortByPublishedDesc l → y ∈ l := by
  induction l with
  | nil => intro h; simp [sortByPublishedDesc] at h
  | cons hd tl ih =>
    intro h
    simp only [sortByPublishedDesc, List.foldr] at h
    rcases mem_insertDesc hd y _ h with h' | h'
    · simp [h']
    · exact List.mem_cons_of_mem _ (ih h')

theorem decrypt_collect_mem (feedTitle : String) (target : Option String)
    (prev : Option PyDatetime) (c : WallClock) :
    ∀ (es : List DecryptEntry) (acc : List NewsItem) (x : NewsItem),
      x ∈ decrypt_collect feedTitle target prev c es acc →
      x ∈ acc ∨ ∃ e pub, decrypt_parse_publication_date e = .ok pub ∧
        decrypt_is_too_old pub prev c = .ok false ∧
        x = create_news_item e feedTitle pub target := by
  intro es
  induction es with
  | nil =>
    intro acc x h
    exact Or.inl (by simpa [decrypt_collect] using h)
  | cons e es ih =>
    intro acc x h
    cases hp : decrypt_parse_publication_date e with
    | error err =>
      simp only [decrypt_collect, hp] at h
      exact Or.inl h
    | ok pub =>
      cases ht : decrypt_is_too_old pub prev c with
      | error err =>
        simp only [decrypt_collect, hp, ht] at h
        exact Or.inl h
      | ok b =>
        cases b with
        | true =>
          simp only [decrypt_collect, hp, ht] at h
          exact ih acc x h
        | false =>
          have step : ∀ acc₀, x ∈ decrypt_collect feedTitle target prev c es
              (acc₀ ++ [create_news_item e feedTitle pub target]) →
              x ∈ acc₀ ∨ ∃ e pub, decrypt_parse_publication_date e = .ok pub ∧
                decrypt_is_too_old pub prev c = .ok false ∧
                x = create_news_item e feedTitle pub target := by
            intro acc₀ h₀
            rcases ih _ x h₀ with hin | hex
            · rcases List.mem_append.mp hin with hin' | hin'
              · exact Or.inl hin'
              · exact Or.inr ⟨e, pub, hp, ht, by simpa using hin'⟩
            · exact Or.inr hex
          simp only [decrypt_collect, hp, ht] at h
          by_cases htt : targetTruthy target = true
          · simp only [htt, if_true] at h
            by_cases hmem : pyLower (target.getD "") ∈ decrypt_extract_categories e
            · simp only [hmem, if_true] at h
              exact step acc h
            · simp only [hmem, if_false] at h
              exact ih acc x h
          · simp only [Bool.not_eq_true] at htt
            simp only [htt, Bool.false_eq_true, if_false] at h
            exact step acc h

theorem beincrypto_collect_mem (target : String) (prev : Option PyDatetime)
    (c : WallClock) :
    ∀ (es : List BeFeedItem) (acc : List NewsItem) (x : NewsItem),
      x ∈ beincrypto_collect target prev c es acc →
      x ∈ acc ∨ ∃ e, beincrypto_is_too_old e.pub_date prev c = .ok false ∧
        x = beincrypto_create_news_item e target := by
  intro es
  induction es with
  | nil =>
    intro acc x h
    exact Or.inl (by simpa [beincrypto_collect] using h)
  | cons e es ih =>
    intro acc x h
    cases ht : beincrypto_is_too_old e.pub_date prev c with
    | error err =>
      simp only [beincrypto_collect, ht] at h
      exact Or.inl h
    | ok b =>
      cases b with
      | true =>
        simp only [beincrypto_collect, ht] at h
        exact ih acc x h
      | false =>
        simp only [beincrypto_collect, ht] at h
        by_cases hskip : target ≠ "" ∧ target ∉ e.categories
        · rw [if_pos hskip] at h
          exact ih acc x h
        · rw [if_neg hskip] at h
          rcases ih _ x h with hin | hex
          · rcases List.mem_append.mp hin with hin' | hin'
            · exact Or.inl hin'
            · exact Or.inr ⟨e, ht, by simpa using hin'⟩
          · exact Or.inr hex

theorem beincrypto_is_too_old_eq : beincrypto_is_too_old = decrypt_is_too_old := rfl

theorem decrypt_is_too_old_false_le (pub since : PyDatetime) (c : WallClock)
    (h : decrypt_is_too_old pub (some since) c = .ok false) :
    pyLe pub since = .ok false := by
  simp only [decrypt_is_too_old] at h
  by_cases h1 : (pub.tzMin.isSome != (datetime_now_utc c).tzMin.isSome) = true
  · simp [h1] at h
  · simp only [Bool.not_eq_true] at h1
    simp only [h1, Bool.false_eq_true, if_false] at h
    by_cases h2 : instUSec pub < pubThresholdKey c
    · simp [h2] at h
    · simp only [h2, if_false] at h
      by_cases h3 : (pub.tzMin.isSome != since.tzMin.isSome) = true
      · simp [h3] at h
      · simp only [Bool.not_eq_true] at h3
        simp only [h3, Bool.false_eq_true, if_false, Except.ok.injEq] at h
        have hkind : sameKind pub since = true := by
          simp [sameKind, bne] at h3 ⊢
          exact h3
        simp [pyLe, hkind, h]

theorem decrypt_is_too_old_false_fresh (pub : PyDatetime) (prev : Option PyDatetime)
    (c : WallClock) (h : decrypt_is_too_old pub prev c = .ok false) :
    pub.tzMin.isSome = true ∧ pubThresholdKey c ≤ instUSec pub := by
  simp only [decrypt_is_too_old] at h
  by_cases h1 : (pub.tzMin.isSome != (datetime_now_utc c).tzMin.isSome) = true
  · simp [h1] at h
  · simp only [Bool.not_eq_true] at h1
    simp only [h1, Bool.false_eq_true, if_false] at h
    by_cases h2 : instUSec pub < pubThresholdKey c
    · simp [h2] at h
    · refine ⟨?_, by omega⟩
      have : (datetime_now_utc c).tzMin.isSome = true := rfl
      simp [bne, this] at h1
      exact h1

/-- C2: every feed entry whose parsed publication timestamp compares less
than or equal to the since watermark is excluded from the list returned by
either feed reader: any item that does appear had its pub_date <= since
comparison evaluate to False. -/
theorem claim_c2_dedup_excluded (feed : DecryptFeed) (bf : Option BeFeed)
    (target : Option String) (t : String) (maxCount : Nat) (since : PyDatetime)
    (c : WallClock) (x y : NewsItem) (l : List NewsItem) :
    (x ∈ decrypt_get_latest feed target maxCount (some since) c →
      pyLe x.published_at since = .ok false) ∧
    (beincrypto_get_latest bf (some t) maxCount (some since) c = .ok l →
      y ∈ l → pyLe y.published_at since = .ok false) := by
  constructor
  · intro hx
    simp only [decrypt_get_latest] at hx
    by_cases hb : feed.bozo = true
    · simp [hb] at hx
    · simp only [Bool.not_eq_true] at hb
      simp only [hb, Bool.false_eq_true, if_false] at hx
      have hx2 := mem_sortByPublishedDesc x _ (List.take_subset _ _ hx)
      rcases decrypt_collect_mem feed.feedTitle target (some since) c
          feed.entries [] x hx2 with hin | ⟨e, pub, _, hold, hxeq⟩
      · simp at hin
      · subst hxeq
        exact decrypt_is_too_old_false_le pub since c hold
  · intro hl hy
    simp only [beincrypto_get_latest] at hl
    cases bf with
    | none =>
      simp only [Except.ok.injEq] at hl
      subst hl
      simp [sortByPublishedDesc] at hy
    | some bfeed =>
      simp only [Except.ok.injEq] at hl
      subst hl
      have hy2 := mem_sortByPublishedDesc y _ (List.take_subset _ _ hy)
      rcases beincrypto_collect_mem (pyLower t) (some since) c bfeed.items [] y hy2
        with hin | ⟨e, hold, hyeq⟩
      · simp at hin
      · subst hyeq
        rw [beincrypto_is_too_old_eq] at hold
        exact decrypt_is_too_old_false_le e.pub_date since c hold

/-- C2 witness at a concrete input: a fresh aware entry is returned and its
comparison against the watermark evaluates to False. -/
theorem claim_c2_dedup_excluded_witness :
    pyLe (⟨2024, 6, 1, 12, 0, 0, 0, some 0⟩ : PyDatetime)
        (⟨2024, 6, 1, 11, 0, 0, 0, some 0⟩ : PyDatetime) = .ok false := by
  have h := (claim_c2_dedup_excluded
    { bozo := false, feedTitle := "Decrypt",
      entries := [{ published := .parsed ⟨2024, 6, 1, 12, 0, 0, 0, some 0⟩,
                    updated := .absent, created := .absent, tags := some ["gaming"],
                    title := "T", link := "L", summary := "S",
                    media_thumbnail := none }] }
    none (some "gaming") "gaming" 1 ⟨2024, 6, 1, 11, 0, 0, 0, some 0⟩
    ⟨2024, 6, 1, 12, 0, 0, 0⟩
    { title := "T", link := "L", published_at := ⟨2024, 6, 1, 12, 0, 0, 0, some 0⟩,
      source := "Decrypt", category := some "gaming", summary := "S...",
      img_link := none }
    { title := "T", link := "L", published_at := ⟨2024, 6, 1, 12, 0, 0, 0, some 0⟩,
      source := "Decrypt", category := some "gaming", summary := "S...",
      img_link := none } []).1
  exact h (by decide)

/-- C6: any item either feed reader returns is timezone-aware and not older
than the one-day staleness window measured from now, for every watermark
value including None: entries older than the window are excluded. -/
theorem claim_c6_staleness_excluded (feed : DecryptFeed) (bf : Option BeFeed)
    (target : Option String) (t : String) (maxCount : Nat)
    (prev : Option PyDatetime) (c : WallClock) (x y : NewsItem)
    (l : List NewsItem) :
    (x ∈ decrypt_get_latest feed target maxCount prev c →
      x.published_at.tzMin.isSome = true ∧
        pubThresholdKey c ≤ instUSec x.published_at) ∧
    (beincrypto_get_latest bf (some t) maxCount prev c = .ok l →
      y ∈ l → y.published_at.tzMin.isSome = true ∧
        pubThresholdKey c ≤ instUSec y.published_at) := by
  constructor
  · intro hx
    simp only [decrypt_get_latest] at hx
    by_cases hb : feed.bozo = true
    · simp [hb] at hx
    · simp only [Bool.not_eq_true] at hb
      simp only [hb, Bool.false_eq_true, if_false] at hx
      have hx2 := mem_sortByPublishedDesc x _ (List.take_subset _ _ hx)
      rcases decrypt_collect_mem feed.feedTitle target prev c
          feed.entries [] x hx2 with hin | ⟨e, pub, _, hold, hxeq⟩
      · simp at hin
      · subst hxeq
        exact decrypt_is_too_old_false_fresh pub prev c hold
  · intro hl hy
    simp only [beincrypto_get_latest] at hl
    cases bf with
    | none =>
      simp only [Except.ok.injEq] at hl
      subst hl
      simp [sortByPublishedDesc] at hy
    | some bfeed =>
      simp only [Except.ok.injEq] at hl
      subst hl
      have hy2 := mem_sortByPublishedDesc y _ (List.take_subset _ _ hy)
      rcases beincrypto_collect_mem (pyLower t) prev c bfeed.items [] y hy2
        with hin | ⟨e, hold, hyeq⟩
      · simp at hin
      · subst hyeq
        rw [beincrypto_is_too_old_eq] at hold
        exact decrypt_is_too_old_false_fresh e.pub_date prev c hold

/-- C6 witness at a concrete input: the returned fresh item is aware and
within the window. -/
theorem claim_c6_staleness_excluded_witness :
    (some 0 : Option Int).isSome = true ∧
      pubThresholdKey ⟨2024, 6, 1, 12, 0, 0, 0⟩ ≤
        instUSec ⟨2024, 6, 1, 12, 0, 0, 0, some 0⟩ := by
  have h := (claim_c6_staleness_excluded
    { bozo := false, feedTitle := "Decrypt",
      entries := [{ published := .parsed ⟨2024, 6, 1, 12, 0, 0, 0, some 0⟩,
                    updated := .absent, created := .absent, tags := some ["gaming"],
                    title := "T", link := "L", summary := "S",
                    media_thumbnail := none }] }
    none (some "gaming") "gaming" 1 none ⟨2024, 6, 1, 12, 0, 0, 0⟩
    { title := "T", link := "L", published_at := ⟨2024, 6, 1, 12, 0, 0, 0, some 0⟩,
      source := "Decrypt", category := some "gaming", summary := "S...",
      img_link := none }
    { title := "T", link := "L", published_at := ⟨2024, 6, 1, 12, 0, 0, 0, some 0⟩,
      source := "Decrypt", category := some "gaming", summary := "S...",
      img_link := none } []).1
  exact h (by decide)

/-- C9 counterexample: with target_category "Gaming" the decrypt reader
returns an item whose category field is the string "Gaming" as passed,
which is not lowercase. -/
theorem claim_c9_counterexample :
    (decrypt_get_latest c9Feed (some "Gaming") 1 none
        ⟨2024, 6, 1, 12, 0, 0, 0⟩).map NewsItem.category = [some "Gaming"] ∧
      some "Gaming" ≠ some (pyLower "Gaming") := by decide

/-- C9 amended: the beincrypto reader stores the lowercased target
category on every returned item; the decrypt reader stores the
target_category argument exactly as passed, so its items carry a lowercase
category only when the caller passes one. -/
theorem claim_c9_amended (feed : DecryptFeed) (bf : Option BeFeed)
    (target : Option String) (t : String) (maxCount : Nat)
    (prev : Option PyDatetime) (c : WallClock) (x y : NewsItem)
    (l : List NewsItem) :
    (x ∈ decrypt_get_latest feed target maxCount prev c →
      x.category = target) ∧
    (beincrypto_get_latest bf (some t) maxCount prev c = .ok l →
      y ∈ l → y.category = some (pyLower t)) := by
  constructor
  · intro hx
    simp only [decrypt_get_latest] at hx
    by_cases hb : feed.bozo = true
    · simp [hb] at hx
    · simp only [Bool.not_eq_true] at hb
      simp only [hb, Bool.false_eq_true, if_false] at hx
      have hx2 := mem_sortByPublishedDesc x _ (List.take_subset _ _ hx)
      rcases decrypt_collect_mem feed.feedTitle target prev c
          feed.entries [] x hx2 with hin | ⟨e, pub, _, _, hxeq⟩
      · simp at hin
      · subst hxeq
        rfl
  · intro hl hy
    simp only [beincrypto_get_latest] at hl
    cases bf with
    | none =>
      simp only [Except.ok.injEq] at hl
      subst hl
      simp [sortByPublishedDesc] at hy
    | some bfeed =>
      simp only [Except.ok.injEq] at hl
      subst hl
      have hy2 := mem_sortByPublishedDesc y _ (List.take_subset _ _ hy)
      rcases beincrypto_collect_mem (pyLower t) prev c bfeed.items [] y hy2
        with hin | ⟨e, _, hyeq⟩
      · simp at hin
      · subst hyeq
        rfl

/-- C9 amended witness at a concrete input. -/
theorem claim_c9_amended_witness :
    (some "Gaming" : Option String) = some "Gaming" := by
  have h := (claim_c9_amended c9Feed none (some "Gaming") "gaming" 1 none
    ⟨2024, 6, 1, 12, 0, 0, 0⟩
    { title := "T", link := "L", published_at := ⟨2024, 6, 1, 12, 0, 0, 0, some 0⟩,
      source := "Decrypt", category := some "Gaming", summary := "S...",
      img_link := none }
    { title := "T", link := "L", published_at := ⟨2024, 6, 1, 12, 0, 0, 0, some 0⟩,
      source := "Decrypt", category := some "Gaming", summary := "S...",
      img_link := none } []).1
  exact h (by decide)

/-- C4 evaluated at the failing inputs: a decrypt entry with no parseable
date field makes _parse_publication_date raise AttributeError (the
fallback line reads dt.now on the datetime module) instead of returning
the current UTC time; a parsed naive published field is coerced to UTC as
claimed; the beincrypto parse_date fallback returns a naive datetime, not
a timezone-aware UTC one. -/
theorem claim_c4_fallback_divergence :
    decrypt_parse_publication_date
        { published := .absent, updated := .caughtErr, created := .absent,
          tags := none, title := "", link := "", summary := "",
          media_thumbnail := none } = .error .attributeError ∧
      decrypt_parse_publication_date
        { published := .parsed ⟨2024, 6, 1, 12, 0, 0, 0, none⟩,
          updated := .absent, created := .absent, tags := none, title := "",
          link := "", summary := "", media_thumbnail := none } =
        .ok ⟨2024, 6, 1, 12, 0, 0, 0, some 0⟩ ∧
      (beincrypto_parse_date none ⟨2024, 6, 1, 12, 0, 0, 0⟩).tzMin = none :=
  ⟨rfl, rfl, rfl⟩

/-- C7 counterexample: a parse exception while processing the second entry
leaves the first collected item in place, so the call returns a non-empty
list rather than the empty list the claim requires for such inputs. -/
theorem claim_c7_counterexample :
    decrypt_get_latest c7Feed none 5 none ⟨2024, 6, 1, 12, 0, 0, 0⟩ ≠ [] := by
  decide

/-- C7 amended: neither reader lets a feed failure propagate (the decrypt
reader is total, the beincrypto reader returns a value for every string
target); malformed feed XML (the bozo flag) and a failed fetch degrade to
the empty list; but a parse exception while processing entries returns the
items collected before the failure, which need not be empty. -/
theorem claim_c7_amended (feed : DecryptFeed) (bf : Option BeFeed)
    (target : Option String) (t : String) (maxCount : Nat)
    (prev : Option PyDatetime) (c : WallClock) :
    (feed.bozo = true → decrypt_get_latest feed target maxCount prev c = []) ∧
    beincrypto_get_latest none (some t) maxCount prev c = .ok [] ∧
    (∃ l, beincrypto_get_latest bf (some t) maxCount prev c = .ok l) := by
  refine ⟨fun hb => by simp [decrypt_get_latest, hb], ?_, ?_⟩
  · simp [beincrypto_get_latest, sortByPublishedDesc]
  · exact ⟨_, rfl⟩

/-- C7 amended witness at a concrete input: a bozo feed yields the empty
list. -/
theorem claim_c7_amended_witness :
    decrypt_get_latest { bozo := true, feedTitle := "D", entries := [] }
      none 1 none ⟨2024, 6, 1, 12, 0, 0, 0⟩ = [] :=
  (claim_c7_amended { bozo := true, feedTitle := "D", entries := [] } none none
    "gaming" 1 none ⟨2024, 6, 1, 12, 0, 0, 0⟩).1 rfl

/-- C5 counterexample: with the mixed-case source "A" the stored bucket is
the lowercased "a", so reading state["A"]["b"] after the update does not
find the stored timestamp. -/
theorem claim_c5_counterexample :
    ¬ (stateLookup
        (load_last_published
          (update_published_dates (load_last_published none) "A" "b"
            ⟨2024, 1, 2, 3, 4, 5, 0, some 0⟩).2)
        "A" "b" = some (pyIsoformat ⟨2024, 1, 2, 3, 4, 5, 0, some 0⟩)) := by
  decide

/-- C5 amended: for every prior file, source, category and timezone-aware
timestamp, load-update-load yields a state whose entry at the lowercased
source and category equals t.isoformat(); for already-lowercase keys this
is exactly state[s][c]. -/
theorem claim_c5_amended (f : StateFile) (s c : String) (t : PyDatetime)
    (h : t.tzMin.isSome = true) :
    stateLookup
      (load_last_published
        (update_published_dates (load_last_published f) s c t).2)
      (pyLower s) (pyLower c) = some (pyIsoformat t) := by
  simp [update_published_dates, load_last_published, stateLookup,
    assocGet_assocSet_same]

/-- C5 amended witness at a concrete input. -/
theorem claim_c5_amended_witness :
    stateLookup
      (load_last_published
        (update_published_dates (load_last_published none) "decrypt_co" "gaming"
          ⟨2024, 1, 2, 3, 4, 5, 0, some 0⟩).2)
      (pyLower "decrypt_co") (pyLower "gaming") =
      some (pyIsoformat ⟨2024, 1, 2, 3, 4, 5, 0, some 0⟩) :=
  claim_c5_amended none "decrypt_co" "gaming" ⟨2024, 1, 2, 3, 4, 5, 0, some 0⟩ rfl

/-- C1: for every sequence of model outputs, every max_news_text_len and
every max_rewriting_tries >= 1, rewrite_news never returns a string longer
than the limit; and when every attempt formats to a string over the limit
it raises RewritedNewsIsTooLongError after exactly max_rewriting_tries
attempts, carrying the last formatted attempt and that attempt's measured
character length. -/
theorem claim_c1_rewrite_bounded (modelText modelTitle : Nat → String)
    (url : String) (maxLen tries : Nat) (htries : 1 ≤ tries) :
    (∀ news used,
      rewrite_news modelText modelTitle url maxLen tries = .ok news used →
      news.length ≤ maxLen) ∧
    ((∀ i, i < tries →
        maxLen < (rewrite_news_from_url (modelText i) (modelTitle i)).length) →
      rewrite_news modelText modelTitle url maxLen tries =
        .tooLong
          ⟨"from " ++ url,
           rewrite_news_from_url (modelText (tries - 1)) (modelTitle (tries - 1)),
           (rewrite_news_from_url (modelText (tries - 1))
             (modelTitle (tries - 1))).length⟩
          tries) := by
  constructor
  · intro news used h
    exact rewrite_news_go_ok_le _ url maxLen tries 0 none news used h
  · intro hlong
    have hx := rewrite_news_go_exhaust
      (fun i => rewrite_news_from_url (modelText i) (modelTitle i)) url maxLen
      tries 0 none htries (fun j _ h2 => hlong j (by omega))
    simpa [rewrite_news] using hx

/-- C1 witness at a concrete input: two attempts, both formatted posts are
longer than the limit of 5 characters, so the typed error carries the
second attempt and is raised after exactly 2 attempts. -/
theorem claim_c1_rewrite_bounded_witness :
    rewrite_news (fun _ => "0123456789") (fun _ => "t") "u" 5 2 =
      .tooLong
        ⟨"from u", rewrite_news_from_url "0123456789" "t",
         (rewrite_news_from_url "0123456789" "t").length⟩ 2 :=
  (claim_c1_rewrite_bounded (fun _ => "0123456789") (fun _ => "t") "u" 5 2
    (by decide)).2 (by decide)

theorem countP_filter_ne_self (tbl : JobTable) (jid : String) :
    (ap_remove_job tbl jid).countP (fun j => j.jid == jid) = 0 := by
  induction tbl with
  | nil => rfl
  | cons hd tl ih =>
    simp only [ap_remove_job] at ih ⊢
    by_cases h : hd.jid = jid
    · simp [List.filter_cons, h, ih]
    · simp [List.filter_cons, h, List.countP_cons, ih]

theorem schedule_job_one (tbl : JobTable) (jid : String) (hours minutes : Nat)
    (hh : hours ≤ 23) (hm : minutes ≤ 59) :
    ∃ tbl2, schedule_job tbl jid hours minutes = .ok (tbl2, true) ∧
      tbl2.countP (fun j => j.jid == jid) = 1 := by
  have hv : ¬ ¬ (hours ≤ 23 ∧ minutes ≤ 59) := by simp [hh, hm]
  simp only [schedule_job, hv, if_false]
  have hrem : ∀ t, (remove_job_if_exists tbl jid).countP
      (fun j => j.jid == jid) = t → t = 0 := by
    intro t ht
    rw [remove_job_if_exists] at ht
    cases hg : ap_get_job tbl jid with
    | some j =>
      rw [hg] at ht
      rw [countP_filter_ne_self tbl jid] at ht
      omega
    | none =>
      rw [hg] at ht
      subst ht
      have : tbl.find? (fun j => j.jid == jid) = none := hg
      have hall := List.find?_eq_none.mp this
      rw [List.countP_eq_zero]
      intro a ha
      simpa using hall a ha
  have hzero := hrem _ rfl
  have hget : ap_get_job (remove_job_if_exists tbl jid) jid = none := by
    unfold ap_get_job
    rw [List.find?_eq_none]
    intro a ha
    have := List.countP_eq_zero.mp hzero a ha
    simpa using this
  simp only [ap_add_job, hget, Option.isSome_none, Bool.false_eq_true, if_false]
  refine ⟨_, rfl, ?_⟩
  rw [List.countP_append]
  rw [hzero]
  simp

/-- C8: registering a job N >= 1 times with the same job id and a valid
time leaves exactly one job with that id in the job table. -/
theorem claim_c8_schedule_idempotent (tbl : JobTable) (jid : String)
    (hours minutes : Nat) (n : Nat) (hh : hours ≤ 23) (hm : minutes ≤ 59)
    (hn : 1 ≤ n) :
    ((schedule_job_iter jid hours minutes n tbl).countP
      (fun j => j.jid == jid)) = 1 := by
  cases n with
  | zero => omega
  | succ m =>
    obtain ⟨tbl2, heq, hcount⟩ :=
      schedule_job_one (schedule_job_iter jid hours minutes m tbl) jid
        hours minutes hh hm
    simp only [schedule_job_iter, heq]
    exact hcount

/-- C8 witness at a concrete input: three registrations leave one job. -/
theorem claim_c8_schedule_idempotent_witness :
    ((schedule_job_iter "publish_news_decrypt_co_gaming_17_25" 17 25 3
        []).countP (fun j => j.jid == "publish_news_decrypt_co_gaming_17_25")) = 1 :=
  claim_c8_schedule_idempotent [] "publish_news_decrypt_co_gaming_17_25" 17 25 3
    (by decide) (by decide) (by decide)

theorem job_items_loop_all_fail (source category : String)
    (outcomes : NewsItem → RwCall × Except PyExc Unit) :
    ∀ (items : List NewsItem) (prev : PubState) (file : StateFile)
      (reps : List Report),
      (∀ it ∈ items, itemFails (outcomes it)) →
      (job_items_loop source category outcomes items prev file reps).1 = file := by
  intro items
  induction items with
  | nil => intro prev file reps _; rfl
  | cons item rest ih =>
    intro prev file reps hall
    have hfail := hall item (by simp)
    rcases hfail with ⟨e, he⟩ | ⟨e, he⟩ | ⟨e, he⟩
    · simp only [job_items_loop, process_and_publish_item, he]
      exact ih prev file _ (fun it hin => hall it (by simp [hin]))
    · simp only [job_items_loop, process_and_publish_item, he]
    · cases hrw : (outcomes item).1 with
      | tooLong e2 =>
        simp only [job_items_loop, process_and_publish_item, hrw]
        exact ih prev file _ (fun it hin => hall it (by simp [hin]))
      | exc e2 =>
        simp only [job_items_loop, process_and_publish_item, hrw]
      | ok news =>
        simp only [job_items_loop, process_and_publish_item, hrw, he]

/-- C3: the watermark is written only after a completed delivery.  If the
rewrite raises the typed too-long error the item is reported and skipped
with the state untouched; if the rewrite or the delivery raises anything
else the exception leaves process_and_publish_item with the state
untouched; and a job whose items all fail ends with the persisted state
file unchanged while publish_news_job returns normally (its result type
carries no exception: the job boundary catches everything and reports). -/
theorem claim_c3_state_only_after_delivery (item : NewsItem)
    (source category : String) (prev : PubState) (file : StateFile)
    (rw : RwCall) (deliver : Except PyExc Unit)
    (reader : Option PyDatetime → Except PyExc (List NewsItem))
    (outcomes : NewsItem → RwCall × Except PyExc Unit) :
    (∀ e, rw = .tooLong e →
      process_and_publish_item item source category prev file rw deliver =
        (prev, file, [.rewriteTooLong], .ok ())) ∧
    (∀ news e, rw = .ok news → deliver = .error e →
      process_and_publish_item item source category prev file rw deliver =
        (prev, file, [], .error e)) ∧
    (∀ e, rw = .exc e →
      process_and_publish_item item source category prev file rw deliver =
        (prev, file, [], .error e)) ∧
    ((∀ it, itemFails (outcomes it)) →
      (publish_news_job source category file reader outcomes).1 = file) := by
  refine ⟨?_, ?_, ?_, ?_⟩
  · intro e he; subst he; rfl
  · intro news e hrw hdel; subst hrw; subst hdel; rfl
  · intro e he; subst he; rfl
  · intro hall
    have hloop : ∀ items : List NewsItem,
        (job_items_loop source category outcomes items
          (load_last_published file) file []).1 = file :=
      fun items => job_items_loop_all_fail source category outcomes items _
        file [] (fun it _ => hall it)
    unfold publish_news_job publish_news_job_after
    cases hs : assocGet ((assocGet (load_last_published file) source).getD [])
        category with
    | none =>
      simp only [hs]
      cases hr : reader none with
      | error e => simp [hr]
      | ok items =>
        cases items with
        | nil => simp [hr]
        | cons a as => simp only [hr]; exact hloop (a :: as)
    | some s =>
      simp only [hs]
      cases hp : strptimeIsoZ s with
      | none => simp [hp]
      | some d =>
        simp only [hp]
        cases hr : reader (some d) with
        | error e => simp [hr]
        | ok items =>
          cases items with
          | nil => simp [hr]
          | cons a as => simp only [hr]; exact hloop (a :: as)

/-- C3 witness at a concrete input: a failing delivery leaves the state
file unchanged and the job reports the error. -/
theorem claim_c3_state_only_after_delivery_witness :
    process_and_publish_item
      { title := "T", link := "L",
        published_at := ⟨2024, 6, 1, 12, 0, 0, 0, some 0⟩, source := "Decrypt",
        category := some "gaming", summary := "S", img_link := none }
      "decrypt_co" "gaming" [] none (.ok "post") (.error .other) =
      ([], none, [], .error .other) :=
  (claim_c3_state_only_after_delivery
    { title := "T", link := "L",
      published_at := ⟨2024, 6, 1, 12, 0, 0, 0, some 0⟩, source := "Decrypt",
      category := some "gaming", summary := "S", img_link := none }
    "decrypt_co" "gaming" [] none (.ok "post") (.error .other)
    (fun _ => .ok []) (fun _ => (.ok "post", .error .other))).2.1 "post" .other
    rfl rfl

theorem digit_isDigit : ∀ d, d ≤ 9 → (Char.ofNat (48 + d)).isDigit = true := by decide

theorem dval_digit : ∀ d, d ≤ 9 → dval (Char.ofNat (48 + d)) = d := by decide

theorem padChars_two (n : Nat) :
    padChars 2 n = [Char.ofNat (48 + n / 10 % 10), Char.ofNat (48 + n % 10)] := rfl

theorem padChars_four (n : Nat) :
    padChars 4 n = [Char.ofNat (48 + n / 10 / 10 / 10 % 10),
      Char.ofNat (48 + n / 10 / 10 % 10), Char.ofNat (48 + n / 10 % 10),
      Char.ofNat (48 + n % 10)] := rfl

theorem reMinute_pad (v : Nat) (hv : v ≤ 59) (r : List Char) :
    reMinute (padChars 2 v ++ r) = some (v, r) := by
  rw [padChars_two]
  have h1 := digit_isDigit (v / 10 % 10) (by omega)
  have h2 := digit_isDigit (v % 10) (by omega)
  have v1 := dval_digit (v / 10 % 10) (by omega)
  have v2 := dval_digit (v % 10) (by omega)
  simp only [List.cons_append, List.nil_append, reMinute]
  rw [v1, v2]
  split_ifs
  all_goals
    first
      | (simp only [Option.some.injEq, Prod.mk.injEq, and_true]
         omega)
      | (exfalso; omega)
      | (exfalso; simp_all <;> omega)

theorem reSecond_pad (v : Nat) (hv : v ≤ 59) (r : List Char) :
    reSecond (padChars 2 v ++ r) = some (v, r) := by
  rw [padChars_two]
  have h1 := digit_isDigit (v / 10 % 10) (by omega)
  have h2 := digit_isDigit (v % 10) (by omega)
  have v1 := dval_digit (v / 10 % 10) (by omega)
  have v2 := dval_digit (v % 10) (by omega)
  simp only [List.cons_append, List.nil_append, reSecond]
  rw [v1, v2]
  split_ifs
  all_goals
    first
      | (simp only [Option.some.injEq, Prod.mk.injEq, and_true]
         omega)
      | (exfalso; omega)
      | (exfalso; simp_all <;> omega)

theorem reHour_pad (v : Nat) (hv : v ≤ 23) (r : List Char) :
    reHour (padChars 2 v ++ r) = some (v, r) := by
  rw [padChars_two]
  have h1 := digit_isDigit (v / 10 % 10) (by omega)
  have h2 := digit_isDigit (v % 10) (by omega)
  have v1 := dval_digit (v / 10 % 10) (by omega)
  have v2 := dval_digit (v % 10) (by omega)
  simp only [List.cons_append, List.nil_append, reHour]
  rw [v1, v2]
  split_ifs
  all_goals
    first
      | (simp only [Option.some.injEq, Prod.mk.injEq, and_true]
         omega)
      | (exfalso; omega)
      | (exfalso; simp_all <;> omega)

theorem reMonth_pad (v : Nat) (hv1 : 1 ≤ v) (hv2 : v ≤ 12) (r : List Char) :
    reMonth (padChars 2 v ++ r) = some (v, r) := by
  rw [padChars_two]
  have h1 := digit_isDigit (v / 10 % 10) (by omega)
  have h2 := digit_isDigit (v % 10) (by omega)
  have v1 := dval_digit (v / 10 % 10) (by omega)
  have v2 := dval_digit (v % 10) (by omega)
  simp only [List.cons_append, List.nil_append, reMonth]
  rw [v1, v2]
  split_ifs
  all_goals
    first
      | (simp only [Option.some.injEq, Prod.mk.injEq, and_true]
         omega)
      | (exfalso; omega)
      | (exfalso; simp_all <;> omega)

theorem reDay_pad (v : Nat) (hv1 : 1 ≤ v) (hv2 : v ≤ 31) (r : List Char) :
    reDay (padChars 2 v ++ r) = some (v, r) := by
  rw [padChars_two]
  have h1 := digit_isDigit (v / 10 % 10) (by omega)
  have h2 := digit_isDigit (v % 10) (by omega)
  have v1 := dval_digit (v / 10 % 10) (by omega)
  have v2 := dval_digit (v % 10) (by omega)
  simp only [List.cons_append, List.nil_append, reDay]
  rw [v1, v2]
  split_ifs
  all_goals
    first
      | (simp only [Option.some.injEq, Prod.mk.injEq, and_true]
         omega)
      | (exfalso; omega)
      | (exfalso; simp_all <;> omega)

theorem reYear_pad (v : Nat) (hv : v ≤ 9999) (r : List Char) :
    reYear (padChars 4 v ++ r) = some (v, r) := by
  rw [padChars_four]
  have h1 := digit_isDigit (v / 10 / 10 / 10 % 10) (by omega)
  have h2 := digit_isDigit (v / 10 / 10 % 10) (by omega)
  have h3 := digit_isDigit (v / 10 % 10) (by omega)
  have h4 := digit_isDigit (v % 10) (by omega)
  have w1 := dval_digit (v / 10 / 10 / 10 % 10) (by omega)
  have w2 := dval_digit (v / 10 / 10 % 10) (by omega)
  have w3 := dval_digit (v / 10 % 10) (by omega)
  have w4 := dval_digit (v % 10) (by omega)
  simp only [List.cons_append, List.nil_append, reYear]
  rw [w1, w2, w3, w4]
  split_ifs
  all_goals
    first
      | (simp only [Option.some.injEq, Prod.mk.injEq, and_true]
         omega)
      | (exfalso; omega)
      | (exfalso; simp_all <;> omega)

theorem daysInMonth_le (y m : Nat) : daysInMonth y m ≤ 31 := by
  unfold daysInMonth
  split_ifs <;> omega

theorem expectChar_self (c : Char) (r : List Char) :
    expectChar c (c :: r) = some r := by
  simp [expectChar]

theorem reZ_dot (xs : List Char) : reZ ('.' :: xs) = none := rfl

theorem reZ_nil : reZ [] = none := rfl

theorem strptime_own_isoformat_fails (t : PyDatetime) (hv : validDT t)
    (hbad : t.micro ≠ 0 ∨ t.tzMin = none) :
    strptimeIsoZ (pyIsoformat t) = none := by
  obtain ⟨hy1, hy2, hm1, hm2, hd1, hd2, hh, hmi, hs, hmic⟩ := hv
  have hd31 : t.day ≤ 31 := le_trans hd2 (daysInMonth_le _ _)
  have hdata : (pyIsoformat t).data = isoformatChars t := rfl
  simp only [strptimeIsoZ, hdata, isoformatChars,
    reYear_pad t.year hy2, expectChar_self,
    reMonth_pad t.month hm1 hm2, reDay_pad t.day hd1 hd31,
    reHour_pad t.hour hh, reMinute_pad t.minute hmi, reSecond_pad t.second hs,
    Option.bind_eq_bind, Option.bind_some, Option.some_bind]
  by_cases hm0 : t.micro = 0
  · have htz : t.tzMin = none := by
      rcases hbad with hb | hb
      · exact absurd hm0 hb
      · exact hb
    simp [hm0, htz, reZ_nil]
  · have hbeq : (t.micro == 0) = false := by simp [hm0]
    simp [hbeq, reZ_dot]
/-- C10: the watermark written by update_published_dates is parseable by
the read path only when the timestamp has zero microseconds and a timezone
offset: for every valid timestamp with nonzero microseconds or no tzinfo,
strptime with "%Y-%m-%dT%H:%M:%S%z" fails on the stored isoformat string,
and the next publish_news_job for that (source, category) terminates
through the error path (one jobError report, state file unchanged) instead
of deduplicating. -/
theorem claim_c10_watermark_parse (t : PyDatetime) (hv : validDT t)
    (hbad : t.micro ≠ 0 ∨ t.tzMin = none) (source category : String)
    (reader : Option PyDatetime → Except PyExc (List NewsItem))
    (outcomes : NewsItem → RwCall × Except PyExc Unit) :
    strptimeIsoZ (pyIsoformat t) = none ∧
    publish_news_job source category
        (some [(source, [(category, pyIsoformat t)])]) reader outcomes =
      (some [(source, [(category, pyIsoformat t)])], [.jobError]) := by
  have hfail := strptime_own_isoformat_fails t hv hbad
  refine ⟨hfail, ?_⟩
  simp [publish_news_job, load_last_published, assocGet, hfail]

/-- C10 witness at a concrete input: an aware timestamp with 123456
microseconds fails to parse back. -/
theorem claim_c10_watermark_parse_witness :
    strptimeIsoZ (pyIsoformat ⟨2024, 1, 2, 3, 4, 5, 123456, some 0⟩) = none :=
  (claim_c10_watermark_parse ⟨2024, 1, 2, 3, 4, 5, 123456, some 0⟩
    (by unfold validDT; decide) (Or.inl (by decide)) "decrypt_co" "gaming"
    (fun _ => .ok []) (fun _ => (.ok "", .ok ()))).1

end NewsBot
